import Mathlib

/-!
# Verification of the WoL-project core (MAC codec, device registry, transmitter)

Shallow embedding of the Go sources:
* the packet codec `CleanMAC` / `ValidateMAC` / `BuildMagicPacket`
  (package wol_packet),
* the device registry `AddDevice` / `RemoveDevice` / `GetDevice` /
  `ListDevices` / `UpdateLastWoken` (package wol_device),
* the transmitter `SendWakePacket` (package wol_network), and
* the wake-target resolution of `handleWake` (main.go).

Go strings are byte slices; we model them as `List Nat` of byte values
(so 58 is the colon, 45 the hyphen).  Go's Unicode case folding is
modelled on the ASCII range, which is the only range the MAC and
reserved-name logic distinguishes.  `time.Now()` is modelled as a
positive natural number supplied to each call; the Go zero time is 0.
File persistence (`Save`) either succeeds or fails, modelled by a
boolean supplied to each mutating call; the write itself is outside the
registry state.
-/

namespace WoL

/-- ASCII bytes of a Lean string literal; used to write byte strings. -/
def str (s : String) : List Nat := s.toList.map Char.toNat

/-! ## MAC codec (package wol_packet) -/

/-- Byte-level model of Go strings.ToUpper (ASCII range). -/
def toUpperByte (b : Nat) : Nat := if 97 ≤ b ∧ b ≤ 122 then b - 32 else b

/-- Byte-level model of Go strings.ToLower (ASCII range). -/
def toLowerByte (b : Nat) : Nat := if 65 ≤ b ∧ b ≤ 90 then b + 32 else b

/-- CleanMAC: strips ':' (58) and '-' (45), then uppercases. -/
def cleanMAC (mac : List Nat) : List Nat :=
  (mac.filter (fun b => b ≠ 58 ∧ b ≠ 45)).map toUpperByte

/-- The character class of the regex [0-9A-F] ('0'..'9' and 'A'..'F'). -/
def isUpperHexDigit (b : Nat) : Bool :=
  decide ((48 ≤ b ∧ b ≤ 57) ∨ (65 ≤ b ∧ b ≤ 70))

inductive MacError where
  | wrongLength (got : Nat)
  | invalidChars
deriving DecidableEq

/-- ValidateMAC: cleans, then requires exactly 12 bytes matching
[0-9A-F].  Go returns error with nil on success: `none` is success. -/
def validateMAC (mac : List Nat) : Option MacError :=
  let cm := cleanMAC mac
  if cm.length ≠ 12 then some (.wrongLength cm.length)
  else if ¬ (cm.all isUpperHexDigit) then some .invalidChars
  else none

/-- One hex digit's value, as in Go encoding/hex fromHexChar. -/
def hexDigitVal (b : Nat) : Option Nat :=
  if 48 ≤ b ∧ b ≤ 57 then some (b - 48)
  else if 97 ≤ b ∧ b ≤ 102 then some (b - 97 + 10)
  else if 65 ≤ b ∧ b ≤ 70 then some (b - 65 + 10)
  else none

/-- Go encoding/hex DecodeString: pairs of hex digits; fails on odd
length or a non-hex byte. -/
def hexDecode : List Nat → Option (List Nat)
  | [] => some []
  | [_] => none
  | a :: b :: rest => do
      let hi ← hexDigitVal a
      let lo ← hexDigitVal b
      let tail ← hexDecode rest
      pure ((hi * 16 + lo) :: tail)

inductive BuildError where
  | invalidMAC (e : MacError)
  | decodeFailed
  | wrongByteCount (got : Nat)
deriving DecidableEq

/-- BuildMagicPacket: validate, decode the 12 hex chars to 6 bytes
(defensive length check), then 6 bytes of 0xFF followed by the MAC
repeated 16 times. -/
def buildMagicPacket (mac : List Nat) : Except BuildError (List Nat) :=
  match validateMAC mac with
  | some e => .error (.invalidMAC e)
  | none =>
    match hexDecode (cleanMAC mac) with
    | none => .error .decodeFailed
    | some macBytes =>
      if macBytes.length ≠ 6 then .error (.wrongByteCount macBytes.length)
      else .ok (List.replicate 6 255 ++ (List.replicate 16 macBytes).flatten)

/-- The canonical colon-separated form AddDevice stores, built from the
12 cleaned bytes by Sprintf over the slices [0:2], [2:4], ..., [10:12]
joined with ':' (58). -/
def formatMAC (cm : List Nat) : List Nat :=
  cm.take 2 ++ [58] ++ (cm.drop 2).take 2 ++ [58] ++ (cm.drop 4).take 2 ++ [58] ++
    (cm.drop 6).take 2 ++ [58] ++ (cm.drop 8).take 2 ++ [58] ++ (cm.drop 10).take 2

/-! ## Device registry (package wol_device) -/

/-- Go unicode.IsSpace on the ASCII range: ' ' and '\t'..'\r'. -/
def isSpaceByte (b : Nat) : Bool := decide (b = 32 ∨ (9 ≤ b ∧ b ≤ 13))

/-- Go strings.TrimSpace: drop leading and trailing whitespace. -/
def trimSpace (s : List Nat) : List Nat :=
  ((s.dropWhile isSpaceByte).reverse.dropWhile isSpaceByte).reverse

structure Device where
  name : List Nat
  macAddress : List Nat
  description : List Nat
  ipAddress : List Nat
  port : Int
  lastWoken : Nat
  addedAt : Nat
deriving DecidableEq

/-- The in-memory map, as an association list keyed by `Device.name`
(one entry per map key; list order stands for the map's iteration
order, which Go leaves arbitrary). -/
abbrev DeviceStore := List Device

inductive DeviceError where
  | emptyName
  | reservedName (name : List Nat)
  | invalidMAC (e : MacError)
  | duplicateName (name : List Nat)
  | duplicateMAC (formattedMAC : List Nat) (existingName : List Nat)
  | notFound (name : List Nat)
  | saveFailed
deriving DecidableEq

def reservedNames : List (List Nat) :=
  [str "add-device", str "list-devices", str "remove-device",
   str "show-device", str "wake", str "help"]

/-- Map lookup ds.Devices[name]. -/
def findDevice (ds : DeviceStore) (name : List Nat) : Option Device :=
  ds.find? (fun d => d.name == name)

/-- AddDevice.  `now` is the value of time.Now(), `saveOk` tells whether
the subsequent Save() succeeds.  Returns the Go error (none on success)
and the registry state after the call. -/
def addDevice (ds : DeviceStore) (name macAddress description ipAddress : List Nat)
    (port : Int) (now : Nat) (saveOk : Bool) : Option DeviceError × DeviceStore :=
  let name := trimSpace name
  if name = [] then (some .emptyName, ds)
  else if reservedNames.contains (name.map toLowerByte) then
    (some (.reservedName name), ds)
  else
    match validateMAC macAddress with
    | some e => (some (.invalidMAC e), ds)
    | none =>
      let cm := cleanMAC macAddress
      let formattedMAC := formatMAC cm
      if (findDevice ds name).isSome then (some (.duplicateName name), ds)
      else
        match ds.find? (fun d => cleanMAC d.macAddress == cm) with
        | some existing => (some (.duplicateMAC formattedMAC existing.name), ds)
        | none =>
          let port := if port = 0 then 9 else port
          let device : Device :=
            { name := name, macAddress := formattedMAC,
              description := trimSpace description,
              ipAddress := trimSpace ipAddress,
              port := port, lastWoken := 0, addedAt := now }
          let ds' := ds ++ [device]
          if saveOk then (none, ds') else (some .saveFailed, ds')

/-- RemoveDevice (no trimming in the source). -/
def removeDevice (ds : DeviceStore) (name : List Nat) (saveOk : Bool) :
    Option DeviceError × DeviceStore :=
  if (findDevice ds name).isSome then
    let ds' := ds.filter (fun d => !(d.name == name))
    if saveOk then (none, ds') else (some .saveFailed, ds')
  else (some (.notFound name), ds)

/-- GetDevice: exact case-sensitive lookup; reads only. -/
def getDevice (ds : DeviceStore) (name : List Nat) : Except DeviceError Device :=
  match findDevice ds name with
  | some d => .ok d
  | none => .error (.notFound name)

/-- UpdateLastWoken: sets lastWoken to time.Now() on the stored device,
then saves. -/
def updateLastWoken (ds : DeviceStore) (name : List Nat) (now : Nat) (saveOk : Bool) :
    Option DeviceError × DeviceStore :=
  if (findDevice ds name).isSome then
    let ds' := ds.map (fun d => if d.name == name then { d with lastWoken := now } else d)
    if saveOk then (none, ds') else (some .saveFailed, ds')
  else (some (.notFound name), ds)

def deviceExists (ds : DeviceStore) (name : List Nat) : Bool :=
  (findDevice ds name).isSome

def getDeviceCount (ds : DeviceStore) : Nat := ds.length

/-- Go string comparison devices[i].Name < devices[j].Name
(bytewise lexicographic). -/
def lexLt : List Nat → List Nat → Bool
  | [], [] => false
  | [], _ :: _ => true
  | _ :: _, [] => false
  | a :: as, b :: bs => if a < b then true else if b < a then false else lexLt as bs

/-- Insert into a name-sorted list (the model of sort.Slice's result). -/
def insertByName (d : Device) : List Device → List Device
  | [] => [d]
  | e :: rest => if lexLt d.name e.name then d :: e :: rest else e :: insertByName d rest

def sortDevices : List Device → List Device
  | [] => []
  | d :: rest => insertByName d (sortDevices rest)

/-- ListDevices: all devices, sorted ascending by name. -/
def listDevices (ds : DeviceStore) : List Device := sortDevices ds

/-- Registry states reachable from the empty registry by AddDevice,
RemoveDevice and UpdateLastWoken; time.Now() is never the zero time. -/
inductive Reachable : DeviceStore → Prop where
  | empty : Reachable []
  | add (ds : DeviceStore) (name macAddress description ipAddress : List Nat)
      (port : Int) (now : Nat) (saveOk : Bool) : Reachable ds → 0 < now →
      Reachable (addDevice ds name macAddress description ipAddress port now saveOk).2
  | remove (ds : DeviceStore) (name : List Nat) (saveOk : Bool) : Reachable ds →
      Reachable (removeDevice ds name saveOk).2
  | update (ds : DeviceStore) (name : List Nat) (now : Nat) (saveOk : Bool) :
      Reachable ds → 0 < now →
      Reachable (updateLastWoken ds name now saveOk).2

/-! ## Transmitter (package wol_network) -/

inductive NetAction where
  | resolveAddr (port : Int)
  | dialUDP
  | setWriteDeadline
  | write (packet : List Nat)
deriving DecidableEq

inductive SendError where
  | invalidPacketLength (got : Nat)
  | resolveFailed
  | dialFailed
  | deadlineFailed
  | writeFailed
  | incompletePacket (sent : Nat) (want : Nat)
deriving DecidableEq

/-- Outcomes of the network calls SendWakePacket makes, supplied by the
environment: whether ResolveUDPAddr, DialUDP and SetWriteDeadline
succeed, and what Write returns (none = error, some n = bytes written). -/
structure NetEnv where
  resolveOk : Bool
  dialOk : Bool
  deadlineOk : Bool
  writeResult : Option Nat
deriving DecidableEq

/-- SendWakePacket: length gate, then resolve / dial / set deadline /
write, in source order.  The second component lists the network
operations performed, in order. -/
def sendWakePacket (packet : List Nat) (port : Int) (env : NetEnv) :
    Option SendError × List NetAction :=
  if packet.length ≠ 102 then (some (.invalidPacketLength packet.length), [])
  else
    let t1 := [NetAction.resolveAddr port]
    if ¬ env.resolveOk then (some .resolveFailed, t1)
    else
      let t2 := t1 ++ [NetAction.dialUDP]
      if ¬ env.dialOk then (some .dialFailed, t2)
      else
        let t3 := t2 ++ [NetAction.setWriteDeadline]
        if ¬ env.deadlineOk then (some .deadlineFailed, t3)
        else
          let t4 := t3 ++ [NetAction.write packet]
          match env.writeResult with
          | none => (some .writeFailed, t4)
          | some n =>
            if n ≠ packet.length then (some (.incompletePacket n packet.length), t4)
            else (none, t4)

/-! ## Wake orchestrator (handleWake in main.go) -/

def defaultWoLPort : Int := 9

structure WakeTarget where
  macAddress : List Nat
  deviceName : List Nat
  port : Int
deriving DecidableEq

/-- The target-resolution part of handleWake: a registered name wins,
with the device's port used unless the caller's port overrides the
default; otherwise the target must itself be a valid MAC.  `none`
models the os.Exit(1) path for an unknown target. -/
def resolveWakeTarget (ds : DeviceStore) (target : List Nat) (port : Int) :
    Option WakeTarget :=
  match findDevice ds target with
  | some device =>
    let port := if port = defaultWoLPort ∧ device.port ≠ defaultWoLPort
                then device.port else port
    some { macAddress := device.macAddress, deviceName := device.name, port := port }
  | none =>
    match validateMAC target with
    | none => some { macAddress := target, deviceName := str "Unknown Device", port := port }
    | some _ => none

/-! ## Lemmas about the MAC codec -/

theorem validateMAC_none_iff (mac : List Nat) :
    validateMAC mac = none ↔
      ((cleanMAC mac).length = 12 ∧ ∀ b ∈ cleanMAC mac, isUpperHexDigit b = true) := by
  simp only [validateMAC]
  split
  · rename_i h
    simp only [reduceCtorEq, false_iff, not_and]
    intro hlen
    exact absurd hlen h
  · split
    · rename_i hlen hall
      simp only [reduceCtorEq, false_iff, not_and]
      intro _ h
      exact hall (List.all_eq_true.mpr h)
    · rename_i hlen hall
      simp only [not_not, List.all_eq_true] at hall
      simp only [not_ne_iff] at hlen
      exact iff_of_true rfl ⟨hlen, hall⟩

theorem validateMAC_some (mac : List Nat) (e : MacError)
    (h : validateMAC mac = some e) :
    e = .wrongLength (cleanMAC mac).length ∨ e = .invalidChars := by
  simp only [validateMAC] at h
  split at h
  · exact Or.inl (Option.some.inj h).symm
  · split at h
    · exact Or.inr (Option.some.inj h).symm
    · exact absurd h (by simp)

theorem hexDigitVal_isSome (b : Nat) (h : isUpperHexDigit b = true) :
    ∃ v, hexDigitVal b = some v := by
  simp only [isUpperHexDigit, decide_eq_true_eq] at h
  unfold hexDigitVal
  split
  · exact ⟨_, rfl⟩
  · split
    · exact ⟨_, rfl⟩
    · split
      · exact ⟨_, rfl⟩
      · omega

theorem hexDecode_of_hex :
    ∀ (n : Nat) (cs : List Nat), cs.length = 2 * n →
      (∀ b ∈ cs, isUpperHexDigit b = true) →
      ∃ bs, hexDecode cs = some bs ∧ bs.length = n := by
  intro n
  induction n with
  | zero =>
    intro cs hlen _
    have hnil : cs = [] := List.eq_nil_of_length_eq_zero (by omega)
    subst hnil
    exact ⟨[], rfl, rfl⟩
  | succ k ih =>
    intro cs hlen hall
    cases cs with
    | nil => simp at hlen
    | cons a t =>
      cases t with
      | nil => simp at hlen; omega
      | cons b rest =>
        obtain ⟨hi, hhi⟩ := hexDigitVal_isSome a (hall a (by simp))
        obtain ⟨lo, hlo⟩ := hexDigitVal_isSome b (hall b (by simp))
        obtain ⟨bs, hbs, hlbs⟩ := ih rest (by simp at hlen; omega)
          (fun x hx => hall x (by simp [hx]))
        refine ⟨(hi * 16 + lo) :: bs, ?_, by simp [hlbs]⟩
        simp [hexDecode, hhi, hlo, hbs]

/-- C1.  For every MAC string accepted by ValidateMAC (any mixture of
':' and '-' separators and any letter case), BuildMagicPacket succeeds
and returns a buffer of exactly 102 bytes whose first 6 bytes are all
0xFF and whose bytes 6..101 are the decoded 6-byte MAC repeated exactly
16 times. -/
theorem buildMagicPacket_of_valid (mac : List Nat) (h : validateMAC mac = none) :
    ∃ macBytes packet,
      hexDecode (cleanMAC mac) = some macBytes ∧ macBytes.length = 6 ∧
      buildMagicPacket mac = .ok packet ∧
      packet.length = 102 ∧
      packet.take 6 = List.replicate 6 255 ∧
      packet.drop 6 = (List.replicate 16 macBytes).flatten := by
  obtain ⟨hlen, hall⟩ := (validateMAC_none_iff mac).mp h
  obtain ⟨macBytes, hdec, hblen⟩ :=
    hexDecode_of_hex 6 (cleanMAC mac) (by omega) hall
  refine ⟨macBytes, List.replicate 6 255 ++ (List.replicate 16 macBytes).flatten,
    hdec, hblen, ?_, ?_, ?_, ?_⟩
  · unfold buildMagicPacket
    rw [h, hdec]
    simp [hblen]
  · simp [List.length_flatten, List.map_replicate, hblen]
  · rw [show (6 : Nat) = (List.replicate 6 (255 : Nat)).length by simp]
    exact List.take_left _ _
  · rw [show (6 : Nat) = (List.replicate 6 (255 : Nat)).length by simp]
    exact List.drop_left _ _

/-- C1 witness: the concrete MAC 00:11:22:33:44:55 is valid and gets
the packet the theorem describes. -/
theorem buildMagicPacket_of_valid_witness :
    ∃ macBytes packet,
      hexDecode (cleanMAC (str "00:11:22:33:44:55")) = some macBytes ∧
      macBytes.length = 6 ∧
      buildMagicPacket (str "00:11:22:33:44:55") = .ok packet ∧
      packet.length = 102 ∧
      packet.take 6 = List.replicate 6 255 ∧
      packet.drop 6 = (List.replicate 16 macBytes).flatten :=
  buildMagicPacket_of_valid (str "00:11:22:33:44:55") (by decide)

/-- C3.  ValidateMAC succeeds iff stripping ':' and '-' and uppercasing
yields exactly 12 bytes, each a hex digit 0-9/A-F; otherwise it fails
with a wrong-length or invalid-characters error. -/
theorem validateMAC_characterization (mac : List Nat) :
    (validateMAC mac = none ↔
      ((cleanMAC mac).length = 12 ∧ ∀ b ∈ cleanMAC mac, isUpperHexDigit b = true)) ∧
    (∀ e, validateMAC mac = some e →
      e = .wrongLength (cleanMAC mac).length ∨ e = .invalidChars) :=
  ⟨validateMAC_none_iff mac, fun e he => validateMAC_some mac e he⟩

/-- C3 witness: a valid MAC through the iff, and the wrong-length error
of a 10-hex-digit input through the error characterization. -/
theorem validateMAC_characterization_witness :
    (cleanMAC (str "aa-bb-cc-dd-ee-ff")).length = 12 ∧
    (MacError.wrongLength 10 =
        .wrongLength (cleanMAC (str "AA:BB:CC:DD:EE")).length ∨
      MacError.wrongLength 10 = .invalidChars) :=
  ⟨((validateMAC_characterization (str "aa-bb-cc-dd-ee-ff")).1.mp (by decide)).1,
   (validateMAC_characterization (str "AA:BB:CC:DD:EE")).2 _ (by decide)⟩

/-- C8.  For every packet whose length is not exactly 102 bytes and
every port, SendWakePacket fails with the invalid-packet-length error
and performs no network operation at all: the trace of network actions
(address resolution, socket dial, deadline, write) is empty. -/
theorem sendWakePacket_short_packet (packet : List Nat) (port : Int) (env : NetEnv)
    (h : packet.length ≠ 102) :
    sendWakePacket packet port env =
      (some (.invalidPacketLength packet.length), []) := by
  simp [sendWakePacket, h]

/-- C8 witness: a 3-byte packet is rejected with no I/O, whatever the
network would have answered. -/
theorem sendWakePacket_short_packet_witness :
    sendWakePacket [255, 255, 255] 9 ⟨true, true, true, some 3⟩ =
      (some (.invalidPacketLength 3), []) :=
  sendWakePacket_short_packet [255, 255, 255] 9 ⟨true, true, true, some 3⟩ (by decide)

/-- C9.  When the wake target matches a registered device name, the
resolver uses that device's MAC and name, and the effective port is the
caller's port when it differs from the default 9, and the device's
configured port otherwise. -/
theorem resolveWakeTarget_known_device (ds : DeviceStore) (target : List Nat)
    (port : Int) (device : Device) (h : findDevice ds target = some device) :
    resolveWakeTarget ds target port =
      some { macAddress := device.macAddress, deviceName := device.name,
             port := if port ≠ defaultWoLPort then port else device.port } := by
  simp only [resolveWakeTarget, h]
  refine congrArg some ?_
  refine congrArg (WakeTarget.mk device.macAddress device.name) ?_
  by_cases hp : port = defaultWoLPort
  · by_cases hd : device.port = defaultWoLPort
    · simp [hp, hd]
    · simp [hp, hd]
  · simp [hp]

/-- C9 witness: a one-device store, queried with the default port and
with an explicit override. -/
theorem resolveWakeTarget_known_device_witness :
    resolveWakeTarget
        [{ name := str "desktop", macAddress := str "AA:BB:CC:DD:EE:FF",
           description := [], ipAddress := [], port := 7, lastWoken := 0,
           addedAt := 1 }] (str "desktop") 9 =
      some { macAddress := str "AA:BB:CC:DD:EE:FF", deviceName := str "desktop",
             port := if (9 : Int) ≠ defaultWoLPort then 9 else 7 } :=
  resolveWakeTarget_known_device _ (str "desktop") 9
    { name := str "desktop", macAddress := str "AA:BB:CC:DD:EE:FF",
      description := [], ipAddress := [], port := 7, lastWoken := 0, addedAt := 1 }
    (by decide)

/-! ## Lemmas about normalization and the canonical MAC form -/

theorem toUpperByte_idem (b : Nat) : toUpperByte (toUpperByte b) = toUpperByte b := by
  unfold toUpperByte
  split
  · split <;> omega
  · rfl

theorem cleanMAC_idem (s : List Nat) : cleanMAC (cleanMAC s) = cleanMAC s := by
  unfold cleanMAC
  have hkeep : ((s.filter (fun b => b ≠ 58 ∧ b ≠ 45)).map toUpperByte).filter
      (fun b => b ≠ 58 ∧ b ≠ 45) = (s.filter (fun b => b ≠ 58 ∧ b ≠ 45)).map toUpperByte := by
    refine List.filter_eq_self.mpr ?_
    intro x hx
    obtain ⟨b, hb, rfl⟩ := List.mem_map.mp hx
    have hbp := List.of_mem_filter hb
    simp only [decide_eq_true_eq] at hbp ⊢
    unfold toUpperByte
    split <;> omega
  rw [hkeep, List.map_map]
  exact List.map_congr_left (fun b _ => toUpperByte_idem b)

theorem hex_byte_bounds (b : Nat) (h : isUpperHexDigit b = true) :
    (48 ≤ b ∧ b ≤ 57) ∨ (65 ≤ b ∧ b ≤ 70) := by
  simpa [isUpperHexDigit] using h

theorem cleanMAC_formatMAC (cm : List Nat) (hlen : cm.length = 12)
    (hall : ∀ b ∈ cm, isUpperHexDigit b = true) :
    cleanMAC (formatMAC cm) = cm := by
  have hfil : ∀ x : List Nat, (∀ b ∈ x, b ∈ cm) →
      x.filter (fun b => b ≠ 58 ∧ b ≠ 45) = x := by
    intro x hx
    refine List.filter_eq_self.mpr ?_
    intro b hb
    have h := hex_byte_bounds b (hall b (hx b hb))
    simp only [decide_eq_true_eq]
    omega
  have hsep : List.filter (fun b => decide (b ≠ 58 ∧ b ≠ 45)) [58] = [] := rfl
  unfold cleanMAC formatMAC
  simp only [List.filter_append, hsep,
    hfil _ (fun b hb => List.take_subset _ _ hb),
    hfil _ (fun b hb => List.drop_subset _ _ (List.take_subset _ _ hb)),
    List.append_nil, List.nil_append]
  simp only [← List.take_add, Nat.reduceAdd]
  rw [List.take_of_length_le (by omega)]
  have hid : List.map toUpperByte cm = List.map id cm :=
    List.map_congr_left (fun b hb => by
      have h := hex_byte_bounds b (hall b hb)
      simp only [id_eq]
      unfold toUpperByte
      split <;> omega)
  simpa using hid

/-- C10.  Normalization is idempotent, and the canonical colon-separated
uppercase form AddDevice stores from a validated input normalizes back
to the same 12 hex bytes and itself passes ValidateMAC — so any two
separator/case renderings of one 6-byte MAC are duplicates of each
other under the registry's CleanMAC comparison. -/
theorem cleanMAC_canonical_roundtrip :
    (∀ s, cleanMAC (cleanMAC s) = cleanMAC s) ∧
    (∀ mac, validateMAC mac = none →
      cleanMAC (formatMAC (cleanMAC mac)) = cleanMAC mac ∧
      validateMAC (formatMAC (cleanMAC mac)) = none) := by
  refine ⟨cleanMAC_idem, fun mac h => ?_⟩
  obtain ⟨hlen, hall⟩ := (validateMAC_none_iff mac).mp h
  have hround := cleanMAC_formatMAC (cleanMAC mac) hlen hall
  refine ⟨hround, ?_⟩
  refine (validateMAC_none_iff _).mpr ?_
  rw [hround]
  exact ⟨hlen, hall⟩

/-- C10 witness: idempotence on a junk string, and the round trip on a
lowercase hyphen-separated rendering. -/
theorem cleanMAC_canonical_roundtrip_witness :
    cleanMAC (cleanMAC (str "a-b:Z9")) = cleanMAC (str "a-b:Z9") ∧
    cleanMAC (formatMAC (cleanMAC (str "aa-bb-cc-dd-ee-ff"))) =
      cleanMAC (str "aa-bb-cc-dd-ee-ff") ∧
    validateMAC (formatMAC (cleanMAC (str "aa-bb-cc-dd-ee-ff"))) = none :=
  ⟨cleanMAC_canonical_roundtrip.1 (str "a-b:Z9"),
   cleanMAC_canonical_roundtrip.2 (str "aa-bb-cc-dd-ee-ff") (by decide)⟩

/-! ## Lemmas about the registry state after each operation -/

theorem mem_addDevice_snd {d : Device} {ds : DeviceStore}
    {name macAddress description ipAddress : List Nat} {port : Int} {now : Nat}
    {saveOk : Bool}
    (hd : d ∈ (addDevice ds name macAddress description ipAddress port now saveOk).2) :
    d ∈ ds ∨ (d.port = (if port = 0 then 9 else port) ∧ d.addedAt = now) := by
  simp only [addDevice] at hd
  split at hd
  · exact Or.inl hd
  · split at hd
    · exact Or.inl hd
    · split at hd
      · exact Or.inl hd
      · split at hd
        · exact Or.inl hd
        · split at hd
          · exact Or.inl hd
          · split at hd <;>
            · rcases List.mem_append.mp hd with h | h
              · exact Or.inl h
              · simp only [List.mem_singleton] at h
                subst h
                exact Or.inr ⟨rfl, rfl⟩

theorem mem_removeDevice_snd {d : Device} {ds : DeviceStore} {name : List Nat}
    {saveOk : Bool} (hd : d ∈ (removeDevice ds name saveOk).2) : d ∈ ds := by
  simp only [removeDevice] at hd
  split at hd
  · split at hd <;> exact List.mem_of_mem_filter hd
  · exact hd

theorem mem_updateLastWoken_snd {d : Device} {ds : DeviceStore} {name : List Nat}
    {now : Nat} {saveOk : Bool} (hd : d ∈ (updateLastWoken ds name now saveOk).2) :
    ∃ d₀ ∈ ds, d.port = d₀.port ∧ d.addedAt = d₀.addedAt := by
  simp only [updateLastWoken] at hd
  split at hd
  · split at hd <;>
    · obtain ⟨d₀, hd₀, heq⟩ := List.mem_map.mp hd
      refine ⟨d₀, hd₀, ?_⟩
      split at heq <;> (subst heq; exact ⟨rfl, rfl⟩)
  · exact ⟨d, hd, rfl, rfl⟩

/-- C2 (amended).  In every registry state reachable from the empty
registry by AddDevice / RemoveDevice / UpdateLastWoken (arbitrary
integer port arguments), every stored device has a non-zero port and a
non-zero addedAt timestamp.  (The original claim's port > 0 fails for
negative port arguments, see the counterexample.) -/
theorem reachable_port_nonzero (ds : DeviceStore) (h : Reachable ds) :
    ∀ d ∈ ds, d.port ≠ 0 ∧ d.addedAt ≠ 0 := by
  induction h with
  | empty => intro d hd; simp at hd
  | add ds name mac desc ip port now saveOk hds hnow ih =>
    intro d hd
    rcases mem_addDevice_snd hd with hmem | ⟨hp, ha⟩
    · exact ih d hmem
    · refine ⟨?_, by omega⟩
      split at hp <;> omega
  | remove ds name saveOk hds ih =>
    intro d hd
    exact ih d (mem_removeDevice_snd hd)
  | update ds name now saveOk hds hnow ih =>
    intro d hd
    obtain ⟨d₀, hd₀, hp, ha⟩ := mem_updateLastWoken_snd hd
    obtain ⟨h1, h2⟩ := ih d₀ hd₀
    rw [hp, ha]
    exact ⟨h1, h2⟩

/-- C2 counterexample: AddDevice accepts a negative port argument
unchanged (only 0 is defaulted to 9), so a reachable state contains a
device with port = -1, refuting "every stored device has port > 0". -/
theorem reachable_port_positive_counterexample :
    ¬ (∀ ds : DeviceStore, Reachable ds → ∀ d ∈ ds, 0 < d.port ∧ d.addedAt ≠ 0) := by
  intro hclaim
  have hreach : Reachable
      (addDevice [] (str "desktop") (str "AA:BB:CC:DD:EE:FF") [] [] (-1) 1 true).2 :=
    Reachable.add [] (str "desktop") (str "AA:BB:CC:DD:EE:FF") [] [] (-1) 1 true
      Reachable.empty (by decide)
  have hmem : Device.mk (str "desktop") (str "AA:BB:CC:DD:EE:FF") [] [] (-1) 0 1
      ∈ (addDevice [] (str "desktop") (str "AA:BB:CC:DD:EE:FF") [] [] (-1) 1 true).2 := by
    decide
  have h := hclaim _ hreach _ hmem
  exact absurd h.1 (by decide)

/-- C2 witness: a state reached by one AddDevice call with port
argument 0 (defaulted to 9); its single device has non-zero port and
addedAt. -/
theorem reachable_port_nonzero_witness :
    (Device.mk (str "desktop") (str "AA:BB:CC:DD:EE:FF") [] [] 9 0 1).port ≠ 0 ∧
    (Device.mk (str "desktop") (str "AA:BB:CC:DD:EE:FF") [] [] 9 0 1).addedAt ≠ 0 :=
  reachable_port_nonzero _
    (Reachable.add [] (str "desktop") (str "AA:BB:CC:DD:EE:FF") [] [] 0 1 true
      Reachable.empty (by decide))
    _ (by decide)

/-! ## Lemmas about ListDevices ordering -/

theorem lexLt_irrefl : ∀ a : List Nat, lexLt a a = false := by
  intro a
  induction a with
  | nil => rfl
  | cons x xs ih => simp [lexLt, ih]

theorem lexLt_trichotomy : ∀ a b : List Nat, lexLt a b = true ∨ a = b ∨ lexLt b a = true := by
  intro a
  induction a with
  | nil =>
    intro b
    cases b with
    | nil => exact Or.inr (Or.inl rfl)
    | cons y ys => exact Or.inl rfl
  | cons x xs ih =>
    intro b
    cases b with
    | nil => exact Or.inr (Or.inr rfl)
    | cons y ys =>
      by_cases hxy : x < y
      · left; simp [lexLt, hxy]
      · by_cases hyx : y < x
        · right; right; simp [lexLt, hyx]
        · have hx : x = y := by omega
          subst hx
          rcases ih ys with h | h | h
          · left; simp [lexLt, h]
          · right; left; rw [h]
          · right; right; simp [lexLt, h]

theorem lexLt_asymm : ∀ a b : List Nat, lexLt a b = true → lexLt b a = false := by
  intro a
  induction a with
  | nil =>
    intro b h
    cases b with
    | nil => simp [lexLt] at h
    | cons y ys => rfl
  | cons x xs ih =>
    intro b h
    cases b with
    | nil => simp [lexLt] at h
    | cons y ys =>
      simp only [lexLt] at h ⊢
      by_cases hxy : x < y
      · simp [hxy, show ¬ (y < x) by omega]
      · by_cases hyx : y < x
        · simp [hxy, hyx] at h
        · have hx : x = y := by omega
          subst hx
          simp only [lt_irrefl, if_false] at h ⊢
          exact ih ys h

theorem lexLt_trans : ∀ a b c : List Nat,
    lexLt a b = true → lexLt b c = true → lexLt a c = true := by
  intro a
  induction a with
  | nil =>
    intro b c hab hbc
    cases b with
    | nil => simp [lexLt] at hab
    | cons y ys =>
      cases c with
      | nil => simp [lexLt] at hbc
      | cons z zs => rfl
  | cons x xs ih =>
    intro b c hab hbc
    cases b with
    | nil => simp [lexLt] at hab
    | cons y ys =>
      cases c with
      | nil => simp [lexLt] at hbc
      | cons z zs =>
        simp only [lexLt] at hab hbc ⊢
        by_cases hxy : x < y
        · by_cases hyz : y < z
          · simp [show x < z by omega]
          · by_cases hzy : z < y
            · simp [hyz, hzy] at hbc
            · have hyz2 : y = z := by omega
              subst hyz2
              simp [hxy]
        · by_cases hyx : y < x
          · simp [hxy, hyx] at hab
          · have hxy2 : x = y := by omega
            subst hxy2
            simp only [lt_irrefl, if_false] at hab
            by_cases hxz : x < z
            · simp [hxz]
            · by_cases hzx : z < x
              · simp [hxz, hzx] at hbc
              · have hxz2 : x = z := by omega
                subst hxz2
                simp only [lt_irrefl, if_false] at hbc ⊢
                exact ih ys zs hab hbc

/-- The non-strict name order sort.Slice leaves behind. -/
def DevLe (a b : Device) : Prop := lexLt b.name a.name = false

theorem insertByName_perm (d : Device) (l : List Device) :
    List.Perm (insertByName d l) (d :: l) := by
  induction l with
  | nil => exact List.Perm.refl _
  | cons e rest ih =>
    unfold insertByName
    split
    · exact List.Perm.refl _
    · exact (List.Perm.cons e ih).trans (List.Perm.swap d e rest)

theorem mem_insertByName {x d : Device} {l : List Device}
    (h : x ∈ insertByName d l) : x = d ∨ x ∈ l := by
  have hm := (insertByName_perm d l).mem_iff.mp h
  simpa using hm

theorem insertByName_pairwise {d : Device} {l : List Device}
    (hl : l.Pairwise DevLe) : (insertByName d l).Pairwise DevLe := by
  induction l with
  | nil => simp [insertByName, DevLe]
  | cons e rest ih =>
    obtain ⟨he, hrest⟩ := List.pairwise_cons.mp hl
    unfold insertByName
    split
    · rename_i hlt
      refine List.pairwise_cons.mpr ⟨?_, hl⟩
      intro x hx
      rcases List.mem_cons.mp hx with rfl | hx
      · exact lexLt_asymm _ _ hlt
      · have hex := he x hx
        unfold DevLe at hex ⊢
        cases hval : lexLt x.name d.name
        · rfl
        · have hxe : lexLt x.name e.name = true := lexLt_trans _ _ _ hval hlt
          rw [hex] at hxe
          exact absurd hxe Bool.false_ne_true
    · rename_i hnlt
      refine List.pairwise_cons.mpr ⟨?_, ih hrest⟩
      intro x hx
      rcases mem_insertByName hx with rfl | hx
      · unfold DevLe
        cases hval : lexLt x.name e.name
        · rfl
        · exact absurd hval hnlt
      · exact he x hx

theorem sortDevices_perm : ∀ l : List Device, List.Perm (sortDevices l) l := by
  intro l
  induction l with
  | nil => exact List.Perm.refl _
  | cons d rest ih =>
    unfold sortDevices
    exact (insertByName_perm d (sortDevices rest)).trans (List.Perm.cons d ih)

theorem sortDevices_pairwise : ∀ l : List Device, (sortDevices l).Pairwise DevLe := by
  intro l
  induction l with
  | nil => simp [sortDevices]
  | cons d rest ih =>
    unfold sortDevices
    exact insertByName_pairwise ih

/-- C7.  ListDevices returns exactly the registered devices (a
permutation of the store — the store itself is not consumed or
modified) in strictly ascending lexicographic order of their names,
whatever order they were inserted in. -/
theorem listDevices_sorted (ds : DeviceStore) (h : (ds.map Device.name).Nodup) :
    List.Perm (listDevices ds) ds ∧
    (listDevices ds).Pairwise (fun a b => lexLt a.name b.name = true) := by
  refine ⟨sortDevices_perm ds, ?_⟩
  have hperm : List.Perm (listDevices ds) ds := sortDevices_perm ds
  have hnodup : ((listDevices ds).map Device.name).Nodup :=
    ((hperm.map Device.name).nodup_iff).mpr h
  have hne : (listDevices ds).Pairwise (fun a b => a.name ≠ b.name) :=
    List.pairwise_map.mp hnodup
  have hsorted : (listDevices ds).Pairwise DevLe := sortDevices_pairwise ds
  refine (hsorted.and hne).imp ?_
  intro a b hab
  obtain ⟨hle, hne2⟩ := hab
  rcases lexLt_trichotomy a.name b.name with ht | ht | ht
  · exact ht
  · exact absurd ht hne2
  · rw [hle] at ht
    exact absurd ht Bool.false_ne_true

/-- C7 witness: two devices inserted in reverse name order come out
name-sorted. -/
theorem listDevices_sorted_witness :
    List.Perm
      (listDevices [Device.mk (str "b") (str "11:22:33:44:55:66") [] [] 9 0 1,
        Device.mk (str "a") (str "AA:BB:CC:DD:EE:FF") [] [] 9 0 1])
      [Device.mk (str "b") (str "11:22:33:44:55:66") [] [] 9 0 1,
        Device.mk (str "a") (str "AA:BB:CC:DD:EE:FF") [] [] 9 0 1] ∧
    (listDevices [Device.mk (str "b") (str "11:22:33:44:55:66") [] [] 9 0 1,
        Device.mk (str "a") (str "AA:BB:CC:DD:EE:FF") [] [] 9 0 1]).Pairwise
      (fun a b => lexLt a.name b.name = true) :=
  listDevices_sorted
    [Device.mk (str "b") (str "11:22:33:44:55:66") [] [] 9 0 1,
      Device.mk (str "a") (str "AA:BB:CC:DD:EE:FF") [] [] 9 0 1] (by decide)

/-! ## Lemmas about AddDevice's branches and lookups -/

theorem validateMAC_congr {a b : List Nat} (h : cleanMAC a = cleanMAC b) :
    validateMAC a = validateMAC b := by
  simp only [validateMAC, h]

theorem findDevice_eq_none {ds : DeviceStore} {name : List Nat}
    (h : ∀ d ∈ ds, d.name ≠ name) : findDevice ds name = none := by
  unfold findDevice
  refine List.find?_eq_none.mpr ?_
  intro d hd
  simpa using h d hd

theorem findDevice_isSome_of_mem {ds : DeviceStore} {D : Device} (h : D ∈ ds) :
    (findDevice ds D.name).isSome := by
  unfold findDevice
  cases hf : ds.find? (fun d => d.name == D.name) with
  | some d => rfl
  | none =>
    have hD := List.find?_eq_none.mp hf D h
    simp at hD

theorem find_first_macMatch {ds : DeviceStore} {E : Device}
    (hdist : ds.Pairwise (fun a b => cleanMAC a.macAddress ≠ cleanMAC b.macAddress))
    (hE : E ∈ ds) :
    ds.find? (fun d => cleanMAC d.macAddress == cleanMAC E.macAddress) = some E := by
  induction ds with
  | nil => simp at hE
  | cons hd tl ih =>
    obtain ⟨hhd, htl⟩ := List.pairwise_cons.mp hdist
    rcases List.mem_cons.mp hE with rfl | hmem
    · exact List.find?_cons_of_pos _ (by simp)
    · have hne : cleanMAC hd.macAddress ≠ cleanMAC E.macAddress := hhd E hmem
      rw [List.find?_cons_of_neg _ (by simpa using hne)]
      exact ih htl hmem

/-- Either AddDevice fails with a validation error and returns the
store unchanged, or it appends exactly one new device (and the error
reports only whether Save succeeded). -/
theorem addDevice_cases (ds : DeviceStore) (name mac desc ip : List Nat)
    (port : Int) (now : Nat) (saveOk : Bool) :
    (∃ e, e ≠ DeviceError.saveFailed ∧
      addDevice ds name mac desc ip port now saveOk = (some e, ds)) ∨
    addDevice ds name mac desc ip port now saveOk =
      ((if saveOk then none else some .saveFailed),
       ds ++ [Device.mk (trimSpace name) (formatMAC (cleanMAC mac)) (trimSpace desc)
         (trimSpace ip) (if port = 0 then 9 else port) 0 now]) := by
  simp only [addDevice]
  split
  · exact Or.inl ⟨.emptyName, by simp, rfl⟩
  · split
    · exact Or.inl ⟨.reservedName (trimSpace name), by simp, rfl⟩
    · split
      · exact Or.inl ⟨.invalidMAC _, by simp, rfl⟩
      · split
        · exact Or.inl ⟨.duplicateName (trimSpace name), by simp, rfl⟩
        · split
          · exact Or.inl ⟨.duplicateMAC _ _, by simp, rfl⟩
          · right
            split <;> rfl

/-- When every validation step passes, AddDevice appends the device
built from the trimmed and canonicalized arguments, and reports the
Save outcome. -/
theorem addDevice_success (ds : DeviceStore) (name mac desc ip : List Nat)
    (port : Int) (now : Nat) (saveOk : Bool)
    (h1 : trimSpace name ≠ [])
    (h2 : reservedNames.contains ((trimSpace name).map toLowerByte) = false)
    (h3 : validateMAC mac = none)
    (h4 : findDevice ds (trimSpace name) = none)
    (h5 : ds.find? (fun d => cleanMAC d.macAddress == cleanMAC mac) = none) :
    addDevice ds name mac desc ip port now saveOk =
      ((if saveOk then none else some .saveFailed),
       ds ++ [Device.mk (trimSpace name) (formatMAC (cleanMAC mac)) (trimSpace desc)
         (trimSpace ip) (if port = 0 then 9 else port) 0 now]) := by
  simp only [addDevice, h1, h2, h3, h4, h5, if_neg h1, Bool.false_eq_true, if_false,
    Option.isSome_none]
  split <;> rfl

/-- The registry's standing well-formedness: unique map keys, pairwise
distinct canonical MACs, and every stored device carries a trimmed,
non-empty, non-reserved name and a MAC that passes validation. -/
abbrev WellFormed (ds : DeviceStore) : Prop :=
  (ds.map Device.name).Nodup ∧
  ds.Pairwise (fun a b => cleanMAC a.macAddress ≠ cleanMAC b.macAddress) ∧
  ∀ d ∈ ds, trimSpace d.name = d.name ∧ d.name ≠ [] ∧
    reservedNames.contains (d.name.map toLowerByte) = false ∧
    validateMAC d.macAddress = none

/-- A one-device registry used to instantiate the registry claims. -/
def sampleStore : DeviceStore :=
  [Device.mk (str "laptop") (str "11:22:33:44:55:66") [] [] 7 0 1]

/-- C4.  On a well-formed registry: AddDevice with an existing device's
exact name (and a MAC that passes validation) fails DuplicateName, and
AddDevice with a fresh, acceptable name but a MAC whose normalized hex
digits match an existing device E's (any separator style or case)
fails with a DuplicateMAC error naming E. -/
theorem addDevice_duplicates (ds : DeviceStore) (hwf : WellFormed ds) :
    (∀ D ∈ ds, ∀ mac desc ip : List Nat, ∀ port : Int, ∀ now : Nat, ∀ saveOk : Bool,
      validateMAC mac = none →
      addDevice ds D.name mac desc ip port now saveOk =
        (some (.duplicateName D.name), ds)) ∧
    (∀ E ∈ ds, ∀ name mac desc ip : List Nat, ∀ port : Int, ∀ now : Nat, ∀ saveOk : Bool,
      cleanMAC mac = cleanMAC E.macAddress →
      trimSpace name ≠ [] →
      reservedNames.contains ((trimSpace name).map toLowerByte) = false →
      (∀ d ∈ ds, d.name ≠ trimSpace name) →
      addDevice ds name mac desc ip port now saveOk =
        (some (.duplicateMAC (formatMAC (cleanMAC mac)) E.name), ds)) := by
  obtain ⟨hnodup, hdist, hdev⟩ := hwf
  constructor
  · intro D hD mac desc ip port now saveOk hvalid
    obtain ⟨htrim, hnil, hres, _⟩ := hdev D hD
    have hsome : (findDevice ds (trimSpace D.name)).isSome := by
      rw [htrim]
      exact findDevice_isSome_of_mem hD
    simp only [addDevice, htrim, hvalid, hres, Bool.false_eq_true, if_false, if_neg hnil]
    rw [htrim] at hsome
    simp [hsome]
  · intro E hE name mac desc ip port now saveOk hmac hnil hres habsent
    have hvalid : validateMAC mac = none := by
      rw [validateMAC_congr hmac]
      exact (hdev E hE).2.2.2
    have h4 : findDevice ds (trimSpace name) = none := findDevice_eq_none habsent
    have h5 : ds.find? (fun d => cleanMAC d.macAddress == cleanMAC mac) = some E := by
      rw [hmac]
      exact find_first_macMatch hdist hE
    simp only [addDevice, hvalid, hres, Bool.false_eq_true, if_false, if_neg hnil, h4,
      Option.isSome_none, h5]

/-- C4 witness: against the one-device sample store, re-adding the name
"laptop" fails DuplicateName, and adding "dup" with the bare-hex
rendering of the same MAC fails DuplicateMAC naming "laptop". -/
theorem addDevice_duplicates_witness :
    addDevice sampleStore (str "laptop") (str "11-22-33-44-55-66") [] [] 9 2 true =
      (some (.duplicateName (str "laptop")), sampleStore) ∧
    addDevice sampleStore (str "dup") (str "112233445566") [] [] 9 2 true =
      (some (.duplicateMAC (formatMAC (cleanMAC (str "112233445566"))) (str "laptop")),
        sampleStore) :=
  ⟨(addDevice_duplicates sampleStore (by decide)).1
      (Device.mk (str "laptop") (str "11:22:33:44:55:66") [] [] 7 0 1) (by decide)
      (str "11-22-33-44-55-66") [] [] 9 2 true (by decide),
   (addDevice_duplicates sampleStore (by decide)).2
      (Device.mk (str "laptop") (str "11:22:33:44:55:66") [] [] 7 0 1) (by decide)
      (str "dup") (str "112233445566") [] [] 9 2 true (by decide) (by decide)
      (by decide) (by decide)⟩

/-- C5.  Every registry call that fails before persisting leaves the
state unchanged: an AddDevice failure other than a Save failure (i.e.
EmptyName, ReservedName, InvalidMAC, DuplicateName, DuplicateMAC)
returns the registry as it was, and RemoveDevice, GetDevice and
UpdateLastWoken on an absent name fail NotFound with the registry
untouched (GetDevice never mutates at all in the model). -/
theorem failed_calls_leave_registry (ds : DeviceStore) (name mac desc ip : List Nat)
    (port : Int) (now : Nat) (saveOk : Bool) :
    (∀ e, (addDevice ds name mac desc ip port now saveOk).1 = some e →
      e ≠ .saveFailed → (addDevice ds name mac desc ip port now saveOk).2 = ds) ∧
    (findDevice ds name = none →
      removeDevice ds name saveOk = (some (.notFound name), ds) ∧
      getDevice ds name = .error (.notFound name) ∧
      updateLastWoken ds name now saveOk = (some (.notFound name), ds)) := by
  constructor
  · intro e he hne
    rcases addDevice_cases ds name mac desc ip port now saveOk with ⟨e2, _, heq⟩ | heq
    · rw [heq]
    · rw [heq] at he
      cases saveOk with
      | true => simp at he
      | false =>
        simp only [Bool.false_eq_true, if_false] at he
        exact absurd (Option.some.inj he).symm hne
  · intro habs
    refine ⟨?_, ?_, ?_⟩
    · simp [removeDevice, habs]
    · simp [getDevice, habs]
    · simp [updateLastWoken, habs]

/-- C5 witness: an empty-name AddDevice on the empty registry leaves it
empty, and the three lookups on an absent name fail NotFound leaving
the empty registry empty. -/
theorem failed_calls_leave_registry_witness :
    (addDevice [] [] (str "AA:BB:CC:DD:EE:FF") [] [] 9 1 true).2 = [] ∧
    (removeDevice [] (str "ghost") true = (some (.notFound (str "ghost")), []) ∧
      getDevice [] (str "ghost") = .error (.notFound (str "ghost")) ∧
      updateLastWoken [] (str "ghost") 1 true = (some (.notFound (str "ghost")), [])) :=
  ⟨(failed_calls_leave_registry [] [] (str "AA:BB:CC:DD:EE:FF") [] [] 9 1 true).1
      .emptyName (by decide) (by decide),
   (failed_calls_leave_registry [] (str "ghost") (str "AA:BB:CC:DD:EE:FF") [] [] 9 1 true).2
      (by decide)⟩

/-- C6.  When validation passes but Save fails, each mutating call
returns the save error while the in-memory mutation stays visible:
the added device is present in the returned state, the removed name no
longer resolves, and the device's lastWoken carries the new timestamp.
No rollback happens. -/
theorem save_failure_keeps_mutation (ds : DeviceStore) :
    (∀ name mac desc ip : List Nat, ∀ port : Int, ∀ now : Nat,
      trimSpace name ≠ [] →
      reservedNames.contains ((trimSpace name).map toLowerByte) = false →
      validateMAC mac = none →
      findDevice ds (trimSpace name) = none →
      ds.find? (fun d => cleanMAC d.macAddress == cleanMAC mac) = none →
      (addDevice ds name mac desc ip port now false).1 = some .saveFailed ∧
      Device.mk (trimSpace name) (formatMAC (cleanMAC mac)) (trimSpace desc)
          (trimSpace ip) (if port = 0 then 9 else port) 0 now
        ∈ (addDevice ds name mac desc ip port now false).2) ∧
    (∀ name : List Nat, ∀ d : Device, findDevice ds name = some d →
      (removeDevice ds name false).1 = some .saveFailed ∧
      findDevice (removeDevice ds name false).2 name = none) ∧
    (∀ name : List Nat, ∀ d : Device, ∀ now : Nat, findDevice ds name = some d →
      (updateLastWoken ds name now false).1 = some .saveFailed ∧
      { d with lastWoken := now } ∈ (updateLastWoken ds name now false).2) := by
  refine ⟨?_, ?_, ?_⟩
  · intro name mac desc ip port now h1 h2 h3 h4 h5
    rw [addDevice_success ds name mac desc ip port now false h1 h2 h3 h4 h5]
    simp
  · intro name d hfind
    have hsome : (findDevice ds name).isSome := by rw [hfind]; rfl
    constructor
    · simp [removeDevice, hsome]
    · simp only [removeDevice, hsome, Bool.false_eq_true, if_false, if_true]
      refine findDevice_eq_none ?_
      intro x hx
      have hpred := List.of_mem_filter hx
      simpa using hpred
  · intro name d now hfind
    have hsome : (findDevice ds name).isSome := by rw [hfind]; rfl
    have hfind2 : ds.find? (fun x => x.name == name) = some d := hfind
    have hmem : d ∈ ds := List.mem_of_find?_eq_some hfind2
    have hpred := List.find?_some hfind2
    constructor
    · simp [updateLastWoken, hsome]
    · simp only [updateLastWoken, hsome, Bool.false_eq_true, if_false, if_true]
      refine List.mem_map.mpr ⟨d, hmem, ?_⟩
      rw [if_pos hpred]

/-- C6 witness: against the sample store with Save failing, adding
"desktop" keeps it in memory, removing "laptop" keeps it gone, and
updating "laptop" shows the new lastWoken — each call reporting the
save error. -/
theorem save_failure_keeps_mutation_witness :
    ((addDevice sampleStore (str "desktop") (str "AA:BB:CC:DD:EE:FF") [] [] 0 2 false).1 =
        some .saveFailed ∧
      Device.mk (trimSpace (str "desktop")) (formatMAC (cleanMAC (str "AA:BB:CC:DD:EE:FF")))
          (trimSpace []) (trimSpace []) (if (0 : Int) = 0 then 9 else 0) 0 2
        ∈ (addDevice sampleStore (str "desktop") (str "AA:BB:CC:DD:EE:FF") [] [] 0 2 false).2) ∧
    ((removeDevice sampleStore (str "laptop") false).1 = some .saveFailed ∧
      findDevice (removeDevice sampleStore (str "laptop") false).2 (str "laptop") = none) ∧
    ((updateLastWoken sampleStore (str "laptop") 3 false).1 = some .saveFailed ∧
      { Device.mk (str "laptop") (str "11:22:33:44:55:66") [] [] 7 0 1 with lastWoken := 3 }
        ∈ (updateLastWoken sampleStore (str "laptop") 3 false).2) :=
  ⟨(save_failure_keeps_mutation sampleStore).1 (str "desktop") (str "AA:BB:CC:DD:EE:FF")
      [] [] 0 2 (by decide) (by decide) (by decide) (by decide) (by decide),
   (save_failure_keeps_mutation sampleStore).2.1 (str "laptop")
      (Device.mk (str "laptop") (str "11:22:33:44:55:66") [] [] 7 0 1) (by decide),
   (save_failure_keeps_mutation sampleStore).2.2 (str "laptop")
      (Device.mk (str "laptop") (str "11:22:33:44:55:66") [] [] 7 0 1) 3 (by decide)⟩

end WoL
